import Mathlib

/-!
# Verification of the pdfget identifier-resolution and download-orchestration core

This development gives a shallow embedding, in Lean 4, of the core functions of
the `pdfget` repository (identifier classification, PMCID normalization, DOI
validation, the DOI→PMCID converter's short-circuit, the rate limiter, the
retry policy, the cache manager's TTL semantics, and the unified download
manager's concurrent-batch reordering), and proves or refutes the specified
properties about them.

Python strings are embedded as `List Char` (ASCII model); Python `None` and
absent dict keys are embedded as `Option`; wall-clock times are embedded as
rationals; thread-pool completion order is embedded as an explicit permutation
of task indices.
-/

namespace PdfGet

/-- Python strings, embedded as lists of characters. -/
abbrev Str := List Char

/-- Shorthand for turning a Lean string literal into the embedding's `Str`. -/
def str (s : String) : Str := s.data

/-! ## Python string primitives (ASCII model) -/

/-- Python `str.isdigit` on a single ASCII character. -/
def pyIsDigit (c : Char) : Bool := '0' ≤ c && c ≤ '9'

/-- Python whitespace (the characters stripped by `str.strip` and matched by
the regex class `\s`, ASCII part): space, tab, newline, carriage return,
vertical tab, form feed. -/
def pyIsSpace (c : Char) : Bool :=
  c = ' ' || c = '\t' || c = '\n' || c = '\r' || c.toNat = 11 || c.toNat = 12

/-- Python `str.strip()`: removes whitespace from both ends. -/
def pyStrip (l : Str) : Str :=
  ((l.dropWhile pyIsSpace).reverse.dropWhile pyIsSpace).reverse

/-- Lower-casing of a single ASCII character (Python `str.lower`). -/
def pyLowerChar (c : Char) : Char :=
  if 'A' ≤ c && c ≤ 'Z' then Char.ofNat (c.toNat + 32) else c

/-- Python `str.lower()`. -/
def pyLower (l : Str) : Str := l.map pyLowerChar

/-- Python `s.isdigit()` on a whole string: non-empty and all digits. -/
def pyIsDigitStr (l : Str) : Bool := !l.isEmpty && l.all pyIsDigit

/-! ## `utils/identifier_utils.py` -/

/-- The four constant strings `IdentifierUtils.detect_identifier_type` can
return: `"pmid"`, `"pmcid"`, `"doi"`, `"unknown"`. -/
inductive IdType where
  | pmid
  | pmcid
  | doi
  | unknown
  deriving DecidableEq, Repr

/-- The check `identifier.lower().startswith("pmc")`. -/
def hasPmcPrefix (t : Str) : Bool := (str "pmc").isPrefixOf (pyLower t)

/-- The PMCID test of `detect_identifier_type`: the lower-cased (stripped)
string starts with `"pmc"` and the remainder after the 3-character prefix is
1–8 digits (`pmcid_part.isdigit() and 1 <= len(pmcid_part) <= 8`). -/
def pmcidTest (t : Str) : Bool :=
  hasPmcPrefix t && pyIsDigitStr (t.drop 3) && decide ((t.drop 3).length ≤ 8)

/-- The DOI test of `detect_identifier_type`: starts with `"10."`, contains
`'/'`, and has more than 8 characters. -/
def doiTest (t : Str) : Bool :=
  (str "10.").isPrefixOf t && t.contains '/' && decide (8 < t.length)

/-- The PMID test of `detect_identifier_type`: 6–10 digits. -/
def pmidTest (t : Str) : Bool :=
  pyIsDigitStr t && decide (6 ≤ t.length) && decide (t.length ≤ 10)

/-- Embedding of `IdentifierUtils.detect_identifier_type`.

Source (`utils/identifier_utils.py`): returns `unknown` on the empty string;
strips whitespace; checks the PMCID shape first, then the DOI shape, then
the PMID shape; a string matching none of the three is `unknown`. -/
def detectIdentifierType (l : Str) : IdType :=
  if l = [] then .unknown
  else
    let t := pyStrip l
    if pmcidTest t then .pmcid
    else if doiTest t then .doi
    else if pmidTest t then .pmid
    else .unknown

/-- Embedding of `IdentifierUtils.normalize_pmcid`.

Source: returns `None` on the empty string; strips whitespace; removes a
case-insensitive `PMC` prefix when present; if the remaining characters are
1–8 digits, returns them (the bare digit string, without any prefix),
otherwise returns `None`. -/
def normalizePmcid (l : Str) : Option Str :=
  if l = [] then none
  else
    let t := pyStrip l
    let core := if hasPmcPrefix t then t.drop 3 else t
    if pyIsDigitStr core && decide (core.length ≤ 8) then some core else none

/-- Executable embedding of the anchored regex check
`re.match(r"^10\.\d+/.+$", t)` used by `IdentifierUtils.validate_doi`
(applied to an already stripped string, so no trailing newline is possible):
the string must be `"10."`, then a non-empty maximal digit run, then `'/'`,
then at least one further character none of which is a newline.  Because
`\d+` must be followed by the literal `'/'` and `'/'` is not a digit, the
digit run of any successful match is exactly the maximal digit run. -/
def doiPatternMatch (t : Str) : Bool :=
  (str "10.").isPrefixOf t &&
    (let u := t.drop 3
     let ds := u.takeWhile pyIsDigit
     !ds.isEmpty &&
       (match u.drop ds.length with
        | '/' :: r => !r.isEmpty && !r.contains '\n'
        | _ => false))

/-- Embedding of `IdentifierUtils.validate_doi`.

Source: `False` on the empty string; strips whitespace; requires the basic
shape (starts with `"10."`, contains `'/'`, length at least 8) and then the
regex `^10\.\d+/.+$`. -/
def validateDoi (l : Str) : Bool :=
  if l = [] then false
  else
    let t := pyStrip l
    if !((str "10.").isPrefixOf t) || !t.contains '/' || t.length < 8 then false
    else doiPatternMatch t

end PdfGet

namespace PdfGet

/-! ## Spec-side DOI regex (for the refinement comparison in C3)

The spec's classification clause for DOIs is the unanchored-match regex
`^10\.\S+/\S+` (plus `length > 8`).  A Python `re.match` of this pattern
against `t` succeeds iff some decomposition
`t = "10." ++ a ++ "/" ++ b :: rest` exists with `a` a non-empty run of
non-whitespace characters and `b` a non-whitespace character (`rest` is
unconstrained, since the pattern is a prefix match). -/

/-- The spec's DOI shape: an (unanchored-suffix) match of `^10\.\S+/\S+`. -/
def doiRegexMatch (t : Str) : Prop :=
  ∃ a b rest, t = '1' :: '0' :: '.' :: (a ++ '/' :: b :: rest) ∧
    a ≠ [] ∧ (∀ c ∈ a, pyIsSpace c = false) ∧ pyIsSpace b = false

/-! ## `utils/rate_limiter.py` -/

/-- Embedding of the `RateLimiter` instance state: the configured rate (in
requests per second) and the stored `last_request_time`.  Wall-clock times
are modelled as rationals. -/
structure RateLimiter where
  rateLimit : ℚ
  lastRequestTime : ℚ
  deriving DecidableEq, Repr

/-- Embedding of `RateLimiter.wait_for_rate_limit`, as a function of the
wall-clock time `currentTime` at which the call is made.  It returns the
time at which the call returns (the call sleeps for
`min_interval - time_since_last` when `time_since_last < min_interval`)
together with the updated limiter state.  As in the source, the stored
`last_request_time` is set to `currentTime` — the time at which the call was
made, not the time at which it returns. -/
def waitForRateLimit (rl : RateLimiter) (currentTime : ℚ) : ℚ × RateLimiter :=
  let timeSinceLast := currentTime - rl.lastRequestTime
  let minInterval := 1 / rl.rateLimit
  let returnTime :=
    if timeSinceLast < minInterval then currentTime + (minInterval - timeSinceLast)
    else currentTime
  (returnTime, { rl with lastRequestTime := currentTime })

/-! ## `retry.py` -/

/-- The failure classes distinguished by `retry.py` (the `requests`
exception taxonomy, as far as `_should_retry` inspects it): an
`HTTPError` carrying an optional response status code, a `Timeout`, a
`ConnectionError`, or any other exception. -/
inductive Exc where
  | httpError (status : Option Nat)
  | timeout
  | connectionError
  | other (msg : Str)
  deriving DecidableEq, Repr

/-- Embedding of `retry._should_retry`: an `HTTPError` is retried iff its
response's status code is in `status_codes`, or unconditionally when it
carries no response; `Timeout` and `ConnectionError` are retried; everything
else is not. -/
def shouldRetry (e : Exc) (statusCodes : List Nat) : Bool :=
  match e with
  | .httpError (some s) => statusCodes.contains s
  | .httpError none => true
  | .timeout => true
  | .connectionError => true
  | .other _ => false

/-- The default `retryable_status_codes` of `retry_with_backoff`. -/
def defaultStatusCodes : List Nat := [429, 502, 503, 504]

/-- Embedding of the loop body of `retry_with_backoff`'s `wrapper`.  The
wrapped zero-argument operation is modelled by the outcome of each of its
invocations: `op i` is what the `i`-th invocation (0-based) does — return a
value or raise an exception.  `i` is the current value of the loop variable
`retry` and `fuel = actual_max_retries - i` (so `fuel > 0` iff
`retry < actual_max_retries`).  Returns the overall outcome together with
the total number of invocations of the operation. -/
def retryAux (op : Nat → Except Exc α) (statusCodes : List Nat) :
    Nat → Nat → Except Exc α × Nat
  | i, fuel =>
    match op i with
    | .ok v => (.ok v, i + 1)
    | .error e =>
      match fuel with
      | 0 => (.error e, i + 1)
      | fuel' + 1 =>
        if shouldRetry e statusCodes then retryAux op statusCodes (i + 1) fuel'
        else (.error e, i + 1)

/-- Embedding of `retry_with_backoff(max_retries=maxRetries)` applied to an
operation: runs the loop `for retry in range(max_retries + 1)`, re-invoking
the operation after a retryable failure while `retry < max_retries`, and
re-raising the final exception otherwise.  Returns the outcome and the
number of times the operation was invoked. -/
def retryWithBackoff (maxRetries : Nat) (statusCodes : List Nat)
    (op : Nat → Except Exc α) : Except Exc α × Nat :=
  retryAux op statusCodes 0 maxRetries

/-! ## `utils/cache_manager.py` -/

/-- Embedding of a stored cache entry: the JSON object
`{"data": ..., "timestamp": ..., "ttl": ...}` written by `CacheManager.set`. -/
structure CacheEntry (α : Type) where
  data : α
  timestamp : ℚ
  ttl : Option ℚ
  deriving DecidableEq

/-- Embedding of `CacheManager._is_expired`: never expired when `ttl` is
`None`, otherwise expired iff `current_time - timestamp > ttl`. -/
def isExpired (e : CacheEntry α) (currentTime : ℚ) : Bool :=
  match e.ttl with
  | none => false
  | some t => decide (currentTime - e.timestamp > t)

/-- The cache store: one independent entry per key (the key→file mapping of
`_get_cache_file` is deterministic, so the store is modelled as key-indexed). -/
def CacheStore (α : Type) := Str → Option (CacheEntry α)

/-- Embedding of `CacheManager.delete`. -/
def cacheDelete (store : CacheStore α) (key : Str) : CacheStore α :=
  fun k => if k = key then none else store k

/-- Embedding of `CacheManager.get` at wall-clock time `now`: a missing
entry yields the caller's default; an expired entry is deleted and yields
the default; otherwise the entry's data is returned.  Returns the value
together with the store after the call. -/
def cacheGet (store : CacheStore α) (key : Str) (default : α) (now : ℚ) :
    α × CacheStore α :=
  match store key with
  | none => (default, store)
  | some e =>
    if isExpired e now then (default, cacheDelete store key)
    else (e.data, store)

/-- Embedding of `CacheManager.set` at wall-clock time `now`. -/
def cacheSet (store : CacheStore α) (key : Str) (data : α) (ttl : Option ℚ)
    (now : ℚ) : CacheStore α :=
  fun k => if k = key then some ⟨data, now, ttl⟩ else store k

end PdfGet

namespace PdfGet

/-! ## `doi_converter.py` -/

/-- The outbound requests `DOIConverter.doi_to_pmcid` can make (each one is
rate-limited and sent over the network): a Europe PMC search by exact DOI,
or the CrossRef fallback (which may itself trigger a further Europe PMC
title search; the whole fallback is logged as one `crossref` item). -/
inductive DoiReq where
  | europePmcDoi (doi : Str)
  | crossref (doi : Str)
  deriving DecidableEq, Repr

/-- The network's behaviour, abstracted: the overall outcome of
`_query_europepmc_doi` (request, response parsing, case-insensitive DOI
match) and of `_query_crossref_api` (request, title extraction, title
re-query); both catch their own exceptions and return `None` on any failure,
which the `Option` codomain models. -/
structure DoiEnv where
  europePmcDoi : Str → Option Str
  crossref : Str → Option Str

/-- Pointwise update of a function-backed map. -/
def mapUpdate (m : Str → Option β) (key : Str) (v : β) : Str → Option β :=
  fun x => if x = key then some v else m x

/-- Embedding of `DOIConverter.doi_to_pmcid`.  `cache` is the converter's
in-memory `_cache` (`None` results are cached as an explicit sentinel, hence
the nested `Option`).  Returns the result, the cache after the call, and the
list of outbound requests made during the call.

Source: an input failing `validate_doi` returns `None` at once (no cache
write, no request); a cached DOI returns its cached result (no request);
otherwise Europe PMC is queried, then — only when the result is empty and
both the argument and the configuration enable the fallback — CrossRef, and
the outcome (including a `None` miss) is written to the cache. -/
def doiToPmcid (env : DoiEnv) (cache : Str → Option (Option Str)) (doi : Str)
    (useFallback useFallbackCfg : Bool) :
    Option Str × (Str → Option (Option Str)) × List DoiReq :=
  if !validateDoi doi then (none, cache, [])
  else
    match cache doi with
    | some cached => (cached, cache, [])
    | none =>
      match env.europePmcDoi doi with
      | some p => (some p, mapUpdate cache doi (some p), [.europePmcDoi doi])
      | none =>
        if useFallback && useFallbackCfg then
          match env.crossref doi with
          | some p =>
            (some p, mapUpdate cache doi (some p),
              [.europePmcDoi doi, .crossref doi])
          | none =>
            (none, mapUpdate cache doi none,
              [.europePmcDoi doi, .crossref doi])
        else (none, mapUpdate cache doi none, [.europePmcDoi doi])

/-! ## `manager.py` (UnifiedDownloadManager) -/

/-- Python truthiness of an optional string field: `None`, an absent key and
the empty string are falsy. -/
def truthy (o : Option Str) : Bool :=
  match o with
  | none => false
  | some s => !s.isEmpty

/-- A paper record submitted to `download_batch` (dict-shaped input path):
the two fields the manager reads.  `none` models both `None` and an absent
key. -/
structure Paper where
  doi : Option Str := none
  pmcid : Option Str := none
  deriving DecidableEq, Repr

/-- A download-result dict.  `none` models an absent key (the task's
exception path builds a dict with no `"pmcid"` and no `"path"` key). -/
structure DRes where
  doi : Option Str := none
  pmcid : Option Str := none
  success : Bool := false
  error : Option Str := none
  path : Option Str := none
  deriving DecidableEq, Repr

/-- Behaviour of `fetcher.pdf_downloader.download_pdf` for one task: return
a result dict, or raise. -/
inductive FetchStep where
  | ok (res : DRes)
  | raise (msg : Str)
  deriving DecidableEq, Repr

/-- Behaviour of `fetcher.search_papers(doi, limit=1)` for one task:
`found p` means a first paper was returned whose `"pmcid"` field holds `p`
(possibly empty), `notFound` means no paper (or no `"pmcid"` key), `raise`
means the search raised. -/
inductive SearchStep where
  | found (pmcid : Str)
  | notFound
  | raise (msg : Str)
  deriving DecidableEq, Repr

/-- The injected fetcher behaviour for a single task. -/
structure TaskEnv where
  download : FetchStep
  search : SearchStep
  deriving DecidableEq, Repr

/-- Embedding of `UnifiedDownloadManager._download_single_task` (the random
pre-task delay and the progress-counter update do not affect the returned
dict and are not modelled).  Any exception in the task body is caught at the
task boundary and turned into `{"doi": doi, "success": False, "error": msg}`
— a dict with no `"pmcid"` key. -/
def downloadSingleTask (doi pmcid : Option Str) (env : TaskEnv) : DRes :=
  if truthy pmcid then
    match env.download with
    | .ok r => { r with doi := doi, pmcid := some (pmcid.getD []) }
    | .raise m =>
      { doi := doi, pmcid := none, success := false, error := some m, path := none }
  else
    match env.search with
    | .raise m =>
      { doi := doi, pmcid := none, success := false, error := some m, path := none }
    | .found p =>
      if !p.isEmpty then
        match env.download with
        | .ok r => { r with doi := doi, pmcid := some p }
        | .raise m =>
          { doi := doi, pmcid := none, success := false, error := some m, path := none }
      else
        { doi := doi, pmcid := some (pmcid.getD []), success := false,
          error := some (str "No PMCID found"), path := none }
    | .notFound =>
      { doi := doi, pmcid := some (pmcid.getD []), success := false,
        error := some (str "No PMCID found"), path := none }

/-- The key under which `_download_concurrent` files a completed result in
`identifier_to_result`: the result's `"doi"` when truthy, else its
`"pmcid"` when truthy, else the result is not filed at all. -/
def resKey (r : DRes) : Option Str :=
  if truthy r.doi then r.doi else if truthy r.pmcid then r.pmcid else none

/-- One step of building `identifier_to_result`: file the completed result
`r` under its key (overwriting), or leave the dict unchanged when `r` has
no truthy identifier. -/
def buildStep (m : Str → Option DRes) (r : DRes) : Str → Option DRes :=
  match resKey r with
  | some k => fun x => if x = k then some r else m x
  | none => m

/-- Embedding of the `identifier_to_result` dict built by
`_download_concurrent` from the completed results (in completion order;
later entries overwrite earlier ones). -/
def buildMap (rs : List DRes) : Str → Option DRes :=
  rs.foldl buildStep (fun _ => none)

/-- Whether a paper carries an identifier (`identifier = doi or pmcid` is
truthy). -/
def hasIdent (p : Paper) : Bool := truthy p.doi || truthy p.pmcid

/-- The identifier of a paper (meaningful when `hasIdent` holds): the DOI
when truthy, else the PMCID. -/
def paperIdent (p : Paper) : Str :=
  if truthy p.doi then p.doi.getD [] else p.pmcid.getD []

/-- The synthesized failure result `_download_concurrent` emits for a paper
whose identifier is absent from `identifier_to_result`. -/
def defaultFail (p : Paper) : DRes :=
  { doi := some (p.doi.getD []), pmcid := some (p.pmcid.getD []),
    success := false, error := some (str "Not found"), path := none }

/-- Embedding of the reorder step of `_download_concurrent`: iterate the
original `papers` sequence; a paper with no identifier contributes nothing;
otherwise the filed result under its identifier, or the synthesized failure
when none is filed. -/
def reorderResults (papers : List Paper) (m : Str → Option DRes) : List DRes :=
  papers.filterMap fun p =>
    if hasIdent p then
      some
        (match m (paperIdent p) with
         | some r => r
         | none => defaultFail p)
    else none

/-- The completed-result list collected by `_download_concurrent`'s
`as_completed` loop: the tasks' results, in completion order.  `order` is
the completion order (a permutation of the task indices); `envs j` is the
fetcher behaviour seen by task `j`. -/
def completedResults (papers : List Paper) (envs : List TaskEnv)
    (order : List Nat) : List DRes :=
  order.filterMap fun j =>
    (papers[j]?).bind fun p =>
      (envs[j]?).map fun e => downloadSingleTask p.doi p.pmcid e

/-- Embedding of `UnifiedDownloadManager._download_concurrent`. -/
def downloadConcurrent (papers : List Paper) (envs : List TaskEnv)
    (order : List Nat) : List DRes :=
  reorderResults papers (buildMap (completedResults papers envs order))

/-- Embedding of `UnifiedDownloadManager.download_batch` on dict-shaped
input (the claims under verification concern items carrying `doi`/`pmcid`
fields, i.e. this input path): an empty input returns `[]`; when no item
has a truthy `"doi"` and no item has a truthy `"pmcid"`, `[]` is returned
without spawning workers; otherwise `_download_concurrent` runs. -/
def downloadBatch (items : List Paper) (envs : List TaskEnv)
    (order : List Nat) : List DRes :=
  if items = [] then []
  else
    let dois := items.filterMap fun p => if truthy p.doi then p.doi else none
    let pmcidCount := items.countP fun p => truthy p.pmcid
    if dois.isEmpty && pmcidCount == 0 then []
    else downloadConcurrent items envs order

end PdfGet

namespace PdfGet

/-! ## Helper lemmas -/

/-- A digit character is unchanged by lower-casing. -/
lemma pyLowerChar_of_digit {c : Char} (h : pyIsDigit c = true) :
    pyLowerChar c = c := by
  unfold pyIsDigit at h
  unfold pyLowerChar
  rw [Bool.and_eq_true] at h
  obtain ⟨h1, h2⟩ := h
  rw [decide_eq_true_iff] at h1 h2
  rw [if_neg]
  simp only [Bool.and_eq_true, decide_eq_true_iff, not_and]
  intro hA
  exact absurd (le_trans hA h2) (by decide)

/-- `identifier.lower().startswith("pmc")` holds iff the string splits as a
3-character prefix lower-casing to `"pmc"` followed by the rest. -/
lemma hasPmcPrefix_iff (t : Str) :
    hasPmcPrefix t = true ↔
      ∃ pre rest, t = pre ++ rest ∧ pre.length = 3 ∧ pyLower pre = str "pmc" := by
  unfold hasPmcPrefix
  rw [List.isPrefixOf_iff_prefix]
  constructor
  · rintro ⟨s, hs⟩
    have hlen : 3 ≤ t.length := by
      have := congrArg List.length hs
      simp [pyLower, str] at this
      omega
    refine ⟨t.take 3, t.drop 3, (List.take_append_drop 3 t).symm, ?_, ?_⟩
    · simp [List.length_take]; omega
    · have : pyLower (t.take 3) = (pyLower t).take 3 := by
        simp [pyLower, List.map_take]
      rw [this, ← hs]
      have h3 : (str "pmc").length = 3 := by decide
      rw [← h3, List.take_left]
  · rintro ⟨pre, rest, rfl, hlen, hpre⟩
    exact ⟨pyLower rest, by rw [← hpre]; simp [pyLower]⟩

/-- If the string after the `pmc` prefix strip is all digits, the prefix
itself cannot lower-case to `"pmc"` when the whole string is digits. -/
lemma not_hasPmcPrefix_of_digits {t : Str} (h : pyIsDigitStr t = true) :
    hasPmcPrefix t = false := by
  rw [Bool.eq_false_iff]
  intro hp
  rw [hasPmcPrefix_iff] at hp
  obtain ⟨pre, rest, rfl, hlen, hpre⟩ := hp
  obtain ⟨a, b, c, rfl⟩ := List.length_eq_three.mp hlen
  unfold pyIsDigitStr at h
  rw [Bool.and_eq_true] at h
  have ha : pyIsDigit a = true := by
    have := h.2
    rw [List.all_eq_true] at this
    exact this a (by simp)
  have : pyLowerChar a = 'p' := by
    have := congrArg (fun l => l.head?) hpre
    simpa [pyLower, str] using this
  rw [pyLowerChar_of_digit ha] at this
  subst this
  exact absurd ha (by decide)

/-- A string starting with `"10."` cannot pass the PMCID test. -/
lemma not_pmcidTest_of_ten {t : Str} (h : (str "10.").isPrefixOf t = true) :
    pmcidTest t = false := by
  rw [List.isPrefixOf_iff_prefix] at h
  obtain ⟨s, hs⟩ := h
  unfold pmcidTest hasPmcPrefix
  subst hs
  simp only [Bool.and_eq_false_iff]
  left; left
  rw [Bool.eq_false_iff]
  intro hp
  rw [List.isPrefixOf_iff_prefix] at hp
  obtain ⟨s', hs'⟩ := hp
  have := congrArg (fun l => l.head?) hs'
  simp [pyLower, str, pyLowerChar] at this

end PdfGet

namespace PdfGet

/-- A non-empty all-digit string has positive length. -/
lemma pyIsDigitStr_pos {l : Str} (h : pyIsDigitStr l = true) : 1 ≤ l.length := by
  unfold pyIsDigitStr at h
  rw [Bool.and_eq_true] at h
  have := h.1
  simp only [Bool.not_eq_true'] at this
  have := List.isEmpty_eq_false.mp this
  exact List.length_pos.mpr this

/-! ## Claim C2 -/

/-- C2, counterexample: on the valid input `"PMC123456"`, `normalize_pmcid`
succeeds but returns the bare digit string `"123456"`, not the canonical
prefixed form `"PMC123456"` the claim states. -/
theorem normalizePmcid_not_prefixed_cex :
    (normalizePmcid (str "PMC123456")).isSome = true ∧
      normalizePmcid (str "PMC123456") ≠ some (str "PMC123456") ∧
      normalizePmcid (str "PMC123456") = some (str "123456") := by
  refine ⟨by decide, by decide, by decide⟩

/-- C2, amended: for every input string, `normalize_pmcid` strips an
optional `PMC`/`pmc` prefix (case-insensitive), and returns the remaining
characters — the bare digit string, with no prefix — exactly when they are
1–8 digits; every other input yields `null`. -/
theorem normalizePmcid_spec (l d : Str) :
    normalizePmcid l = some d ↔
      pyIsDigitStr d = true ∧ 1 ≤ d.length ∧ d.length ≤ 8 ∧
        (pyStrip l = d ∨
          ∃ pre, pre.length = 3 ∧ pyLower pre = str "pmc" ∧
            pyStrip l = pre ++ d) := by
  unfold normalizePmcid
  by_cases hl : l = []
  · subst hl
    simp only [if_pos rfl]
    constructor
    · intro h; exact absurd h (by simp)
    · rintro ⟨hd, hd1, -, hcase⟩
      exfalso
      have hnil : pyStrip ([] : Str) = [] := by decide
      rcases hcase with h | ⟨pre, hpre3, -, h⟩
      · rw [hnil] at h
        subst h
        simp at hd1
      · rw [hnil] at h
        have := congrArg List.length h
        simp [hpre3] at this
        omega
  · rw [if_neg hl]
    set t := pyStrip l with ht
    by_cases hp : hasPmcPrefix t = true
    · obtain ⟨pre, rest, htd, hlen3, hlow⟩ := (hasPmcPrefix_iff t).mp hp
      simp only [hp, if_true]
      have hdrop : t.drop 3 = rest := by
        rw [htd, ← hlen3, List.drop_left]
      rw [hdrop]
      constructor
      · intro h
        split_ifs at h with hcond
        · rw [Bool.and_eq_true, decide_eq_true_iff] at hcond
          obtain ⟨hdig, hle⟩ := hcond
          rw [Option.some_inj] at h
          subst h
          exact ⟨hdig, pyIsDigitStr_pos hdig, hle,
            Or.inr ⟨pre, hlen3, hlow, htd⟩⟩
      · rintro ⟨hdig, hd1, hd8, hcase⟩
        have hrest : rest = d := by
          rcases hcase with h | ⟨pre', hpre3', hlow', h⟩
          · -- `t = d` all digits contradicts the `pmc` prefix on `t`
            exfalso
            rw [h] at hp
            rw [not_hasPmcPrefix_of_digits hdig] at hp
            exact absurd hp (by simp)
          · rw [htd] at h
            obtain ⟨a1, a2, a3, rfl⟩ := List.length_eq_three.mp hlen3
            obtain ⟨b1, b2, b3, rfl⟩ := List.length_eq_three.mp hpre3'
            simp only [List.cons_append, List.nil_append, List.cons.injEq] at h
            obtain ⟨-, -, -, h⟩ := h
            exact h
        subst hrest
        rw [if_pos]
        rw [Bool.and_eq_true, decide_eq_true_iff]
        exact ⟨hdig, hd8⟩
    · rw [Bool.not_eq_true] at hp
      simp only [hp, if_false, Bool.false_eq_true]
      constructor
      · intro h
        split_ifs at h with hcond
        · rw [Bool.and_eq_true, decide_eq_true_iff] at hcond
          obtain ⟨hdig, hle⟩ := hcond
          rw [Option.some_inj] at h
          subst h
          exact ⟨hdig, pyIsDigitStr_pos hdig, hle, Or.inl rfl⟩
      · rintro ⟨hdig, hd1, hd8, hcase⟩
        have htd : t = d := by
          rcases hcase with h | ⟨pre', hpre3', hlow', h⟩
          · exact h
          · exfalso
            have : hasPmcPrefix t = true := by
              rw [hasPmcPrefix_iff]
              exact ⟨pre', d, h, hpre3', hlow'⟩
            rw [hp] at this
            exact absurd this (by simp)
        subst htd
        rw [if_pos]
        rw [Bool.and_eq_true, decide_eq_true_iff]
        exact ⟨hdig, hd8⟩

end PdfGet

namespace PdfGet

/-! ## Claim C3 -/

/-- The spec's PMCID shape, `^PMC\d{1,8}$` with case-insensitive prefix: a
3-character prefix lower-casing to `"pmc"`, followed by 1–8 digits and
nothing else. -/
def specPmcidShape (t : Str) : Prop :=
  ∃ pre d, t = pre ++ d ∧ pre.length = 3 ∧ pyLower pre = str "pmc" ∧
    d ≠ [] ∧ (∀ c ∈ d, pyIsDigit c = true) ∧ d.length ≤ 8

/-- The spec's PMID shape, `^\d{6,10}$`: 6–10 digits and nothing else. -/
def specPmidShape (t : Str) : Prop :=
  (∀ c ∈ t, pyIsDigit c = true) ∧ 6 ≤ t.length ∧ t.length ≤ 10

/-- The code's DOI shape (what `detect_identifier_type` actually tests):
starts with `"10."`, contains a `'/'` anywhere, and has length > 8. -/
def codeDoiShape (t : Str) : Prop :=
  (str "10.").isPrefixOf t = true ∧ t.contains '/' = true ∧ 8 < t.length

/-- The code's PMCID test agrees with the spec's `^PMC\d{1,8}$` shape. -/
lemma pmcidTest_iff_shape (t : Str) :
    pmcidTest t = true ↔ specPmcidShape t := by
  unfold pmcidTest specPmcidShape
  rw [Bool.and_eq_true, Bool.and_eq_true, decide_eq_true_iff]
  constructor
  · rintro ⟨⟨hp, hdig⟩, hle⟩
    obtain ⟨pre, rest, rfl, hlen3, hlow⟩ := (hasPmcPrefix_iff _).mp hp
    have hdrop : (pre ++ rest).drop 3 = rest := by
      rw [← hlen3, List.drop_left]
    rw [hdrop] at hdig hle
    unfold pyIsDigitStr at hdig
    rw [Bool.and_eq_true] at hdig
    refine ⟨pre, rest, rfl, hlen3, hlow, ?_, ?_, hle⟩
    · simp only [Bool.not_eq_true'] at hdig
      exact List.isEmpty_eq_false.mp hdig.1
    · intro c hc
      have := hdig.2
      rw [List.all_eq_true] at this
      exact this c hc
  · rintro ⟨pre, d, rfl, hlen3, hlow, hne, hdig, hle⟩
    have hdrop : (pre ++ d).drop 3 = d := by
      rw [← hlen3, List.drop_left]
    refine ⟨⟨?_, ?_⟩, ?_⟩
    · rw [hasPmcPrefix_iff]
      exact ⟨pre, d, rfl, hlen3, hlow⟩
    · rw [hdrop]
      unfold pyIsDigitStr
      rw [Bool.and_eq_true]
      constructor
      · simp only [Bool.not_eq_true']
        exact List.isEmpty_eq_false.mpr hne
      · rw [List.all_eq_true]
        exact hdig
    · rw [hdrop]; exact hle

/-- The code's PMID test agrees with the spec's `^\d{6,10}$` shape. -/
lemma pmidTest_iff_shape (t : Str) :
    pmidTest t = true ↔ specPmidShape t := by
  unfold pmidTest specPmidShape pyIsDigitStr
  rw [Bool.and_eq_true, Bool.and_eq_true, Bool.and_eq_true,
    decide_eq_true_iff, decide_eq_true_iff]
  constructor
  · rintro ⟨⟨⟨-, hall⟩, h6⟩, h10⟩
    rw [List.all_eq_true] at hall
    exact ⟨hall, h6, h10⟩
  · rintro ⟨hall, h6, h10⟩
    refine ⟨⟨⟨?_, ?_⟩, h6⟩, h10⟩
    · simp only [Bool.not_eq_true']
      rw [List.isEmpty_eq_false]
      intro hnil
      subst hnil
      simp at h6
    · rw [List.all_eq_true]; exact hall

/-- A 6–10 digit string passes neither the PMCID test nor the DOI test. -/
lemma pmid_shape_excludes {t : Str} (h : specPmidShape t) :
    pmcidTest t = false ∧ doiTest t = false := by
  obtain ⟨hall, h6, h10⟩ := h
  have hdig : pyIsDigitStr t = true := by
    unfold pyIsDigitStr
    rw [Bool.and_eq_true]
    constructor
    · simp only [Bool.not_eq_true']
      rw [List.isEmpty_eq_false]
      intro hnil; subst hnil; simp at h6
    · rw [List.all_eq_true]; exact hall
  constructor
  · unfold pmcidTest
    rw [not_hasPmcPrefix_of_digits hdig]
    simp
  · unfold doiTest
    rw [Bool.and_eq_false_iff, Bool.and_eq_false_iff]
    left; left
    rw [Bool.eq_false_iff]
    intro hp
    rw [List.isPrefixOf_iff_prefix] at hp
    obtain ⟨s, hs⟩ := hp
    have hmem : '.' ∈ t := by
      rw [← hs]
      simp [str]
    have := hall '.' hmem
    exact absurd this (by decide)

/-- C3, counterexample: `"10./abcdef"` is classified `doi` by
`detect_identifier_type`, yet it does not match the spec's regex
`^10\.\S+/\S+` (the `\S+` before the `/` must be non-empty), so the claim's
"`doi` exactly when `^10\.\S+/\S+` matches and length > 8" fails. -/
theorem detect_doi_regex_cex :
    detectIdentifierType (str "10./abcdef") = .doi ∧
      8 < (str "10./abcdef").length ∧
      ¬ doiRegexMatch (str "10./abcdef") := by
  refine ⟨by decide, by decide, ?_⟩
  rintro ⟨a, b, rest, heq, hane, -, -⟩
  have hs : str "10./abcdef" = '1' :: '0' :: '.' :: '/' :: 'a' :: 'b' :: 'c'
      :: 'd' :: 'e' :: 'f' :: [] := rfl
  rw [hs] at heq
  simp only [List.cons.injEq, true_and] at heq
  cases a with
  | nil => exact hane rfl
  | cons x a' =>
    simp only [List.cons_append, List.cons.injEq] at heq
    obtain ⟨-, heq⟩ := heq
    have : '/' ∈ ('a' :: 'b' :: 'c' :: 'd' :: 'e' :: 'f' :: []) := by
      rw [heq]
      exact List.mem_append_right a' (List.mem_cons_self '/' _)
    exact absurd this (by decide)

/-- C3, amended: for every input string `s` (with `t` its
whitespace-trimmed form), `detect` returns `pmcid` exactly when `t` matches
`^PMC\d{1,8}$` (case-insensitive prefix), `pmid` exactly when `t` matches
`^\d{6,10}$`, `doi` exactly when `t` starts with `"10."`, contains `'/'`
and has length > 8 (the code's test — weaker than the spec's
`^10\.\S+/\S+`), and `unknown` for every other string. -/
theorem detect_characterization (l : Str) :
    (detectIdentifierType l = .pmcid ↔ specPmcidShape (pyStrip l)) ∧
      (detectIdentifierType l = .pmid ↔ specPmidShape (pyStrip l)) ∧
      (detectIdentifierType l = .doi ↔ codeDoiShape (pyStrip l)) ∧
      (detectIdentifierType l = .unknown ↔
        ¬ specPmcidShape (pyStrip l) ∧ ¬ specPmidShape (pyStrip l) ∧
          ¬ codeDoiShape (pyStrip l)) := by
  by_cases hl : l = []
  · subst hl
    have hnil : pyStrip ([] : Str) = [] := by decide
    rw [hnil]
    refine ⟨?_, ?_, ?_, ?_⟩
    · constructor
      · intro h; exact absurd h (by decide)
      · rintro ⟨pre, d, habs, hlen3, -⟩
        exfalso
        have := congrArg List.length habs
        simp [hlen3] at this
        omega
    · constructor
      · intro h; exact absurd h (by decide)
      · rintro ⟨-, h6, -⟩; simp at h6
    · constructor
      · intro h; exact absurd h (by decide)
      · rintro ⟨-, -, h8⟩; simp at h8
    · constructor
      · intro h
        refine ⟨?_, ?_, ?_⟩
        · rintro ⟨pre, d, habs, hlen3, -⟩
          have := congrArg List.length habs
          simp [hlen3] at this
          omega
        · rintro ⟨-, h6, -⟩; simp at h6
        · rintro ⟨-, -, h8⟩; simp at h8
      · intro h; decide
  · unfold detectIdentifierType
    rw [if_neg hl]
    set t := pyStrip l with ht
    by_cases hpmc : pmcidTest t = true
    · simp only [hpmc, if_true]
      have hshape := (pmcidTest_iff_shape t).mp hpmc
      refine ⟨by simp [hshape], ?_, ?_, ?_⟩
      · constructor
        · intro h; exact absurd h (by decide)
        · intro h
          exact absurd ((pmid_shape_excludes h).1) (by simp [hpmc])
      · constructor
        · intro h; exact absurd h (by decide)
        · rintro ⟨h10, -, -⟩
          rw [not_pmcidTest_of_ten h10] at hpmc
          exact absurd hpmc (by simp)
      · constructor
        · intro h; exact absurd h (by decide)
        · rintro ⟨habs, -, -⟩
          exact absurd hshape habs
    · rw [if_neg (by simpa using hpmc)]
      by_cases hdoi : doiTest t = true
      · simp only [hdoi, if_true]
        have hshape : codeDoiShape t := by
          unfold doiTest at hdoi
          rw [Bool.and_eq_true, Bool.and_eq_true, decide_eq_true_iff] at hdoi
          exact ⟨hdoi.1.1, hdoi.1.2, hdoi.2⟩
        refine ⟨?_, ?_, by simp [hshape], ?_⟩
        · constructor
          · intro h; exact absurd h (by decide)
          · intro h
            rw [(pmcidTest_iff_shape t).mpr h] at hpmc
            exact absurd rfl hpmc
        · constructor
          · intro h; exact absurd h (by decide)
          · intro h
            exact absurd ((pmid_shape_excludes h).2) (by simp [hdoi])
        · constructor
          · intro h; exact absurd h (by decide)
          · rintro ⟨-, -, habs⟩
            exact absurd hshape habs
      · rw [if_neg (by simpa using hdoi)]
        have hdoiShape : ¬ codeDoiShape t := by
          rintro ⟨h1, h2, h3⟩
          apply hdoi
          unfold doiTest
          rw [Bool.and_eq_true, Bool.and_eq_true, decide_eq_true_iff]
          exact ⟨⟨h1, h2⟩, h3⟩
        by_cases hpmid : pmidTest t = true
        · simp only [hpmid, if_true]
          have hshape := (pmidTest_iff_shape t).mp hpmid
          refine ⟨?_, by simp [hshape], ?_, ?_⟩
          · constructor
            · intro h; exact absurd h (by decide)
            · intro h
              rw [(pmcidTest_iff_shape t).mpr h] at hpmc
              exact absurd rfl hpmc
          · constructor
            · intro h; exact absurd h (by decide)
            · intro h
              exact absurd h hdoiShape
          · constructor
            · intro h; exact absurd h (by decide)
            · rintro ⟨-, habs, -⟩
              exact absurd hshape habs
        · rw [if_neg (by simpa using hpmid)]
          refine ⟨?_, ?_, ?_, ?_⟩
          · constructor
            · intro h; exact absurd h (by decide)
            · intro h
              rw [(pmcidTest_iff_shape t).mpr h] at hpmc
              exact absurd rfl hpmc
          · constructor
            · intro h; exact absurd h (by decide)
            · intro h
              rw [(pmidTest_iff_shape t).mpr h] at hpmid
              exact absurd rfl hpmid
          · constructor
            · intro h; exact absurd h (by decide)
            · intro h
              exact absurd h hdoiShape
          · refine ⟨fun _ => ⟨?_, ?_, hdoiShape⟩, fun _ => rfl⟩
            · intro h
              rw [(pmcidTest_iff_shape t).mpr h] at hpmc
              exact absurd rfl hpmc
            · intro h
              rw [(pmidTest_iff_shape t).mpr h] at hpmid
              exact absurd rfl hpmid

end PdfGet

namespace PdfGet

/-! ## Claim C4 -/

/-- C4, failing input: a limiter with `rate_limit = 1` (minimum interval 1s)
and three strictly sequential calls — the first at t = 10, the second
immediately after it returns (t = 10), the third exactly when the second
returns (t = 11).  Because `wait_for_rate_limit` stores the *pre-sleep*
current time as `last_request_time`, the third call sees
`time_since_last = 1` and does not wait: the second and third calls both
return at t = 11, so two consecutive requests are issued 0 seconds apart —
less than the minimum inter-request interval `1/rate_limit = 1`. -/
theorem rateLimiter_burst_violation :
    let rl0 : RateLimiter := ⟨1, 0⟩
    let c1 := waitForRateLimit rl0 10
    let c2 := waitForRateLimit c1.2 10
    let c3 := waitForRateLimit c2.2 c2.1
    c1.1 = 10 ∧ c2.1 = 11 ∧ c3.1 = 11 ∧
      c3.1 - c2.1 = 0 ∧ (0 : ℚ) < 1 / rl0.rateLimit := by
  norm_num [waitForRateLimit]

/-! ## Claims C5 and C6 -/

/-- The retryable failure classes as the spec words them, plus the case the
code actually also retries: an `HTTPError` that carries no response. -/
def retryableSpec (e : Exc) : Prop :=
  e = .timeout ∨ e = .connectionError ∨ e = .httpError none ∨
    ∃ s, e = .httpError (some s) ∧ s ∈ defaultStatusCodes

/-- `_should_retry` decides exactly `retryableSpec`. -/
lemma shouldRetry_iff (e : Exc) :
    shouldRetry e defaultStatusCodes = true ↔ retryableSpec e := by
  cases e with
  | httpError st =>
    cases st with
    | none => simp [shouldRetry, retryableSpec]
    | some s =>
      simp only [shouldRetry, retryableSpec, List.elem_iff]
      constructor
      · intro h
        exact Or.inr (Or.inr (Or.inr ⟨s, rfl, h⟩))
      · rintro (h | h | h | ⟨s', hs', hmem⟩) <;> try exact absurd h (by simp)
        · cases hs'
          exact hmem
  | timeout => simp [shouldRetry, retryableSpec]
  | connectionError => simp [shouldRetry, retryableSpec]
  | other m => simp [shouldRetry, retryableSpec]

/-- Each run of the retry loop starting at attempt index `i` invokes the
operation at least once more, so the invocation count exceeds `i`. -/
lemma retryAux_count_ge (op : Nat → Except Exc α) (codes : List Nat) :
    ∀ fuel i, i + 1 ≤ (retryAux op codes i fuel).2 := by
  intro fuel
  induction fuel with
  | zero =>
    intro i
    unfold retryAux
    cases op i <;> simp
  | succ fuel' ih =>
    intro i
    unfold retryAux
    cases op i with
    | ok v => simp
    | error e =>
      by_cases hr : shouldRetry e codes = true
      · simp only [hr, if_true]
        have := ih (i + 1)
        omega
      · simp only [Bool.not_eq_true] at hr
        simp [hr]

/-- C5, counterexample: an `HTTPError` carrying no response is none of the
claim's retryable classes (not a timeout, not a connection failure, and has
no status code in `{429, 502, 503, 504}`), yet an operation that always
raises it, wrapped with `max_retries = 2`, is invoked 3 times — retries are
attempted, not the claim's "invoked exactly once". -/
theorem retry_noResponse_cex :
    Exc.httpError none ≠ .timeout ∧
      Exc.httpError none ≠ .connectionError ∧
      (∀ s ∈ defaultStatusCodes, Exc.httpError none ≠ .httpError (some s)) ∧
      (retryWithBackoff 2 defaultStatusCodes
          (fun _ => (.error (.httpError none) : Except Exc Unit))).2 = 3 := by
  refine ⟨by decide, by decide, by decide, by decide⟩

/-- C5, amended: a retry is attempted if and only if the raised failure is
a timeout, a connection failure, an HTTP error carrying no response, or an
HTTP error whose status code is in `{429, 502, 503, 504}`; any other
failure (for example an HTTP 404) propagates immediately, the operation
having been invoked exactly once. -/
theorem retry_predicate_characterization (maxRetries : Nat)
    (op : Nat → Except Exc α) (e : Exc) (h0 : op 0 = .error e)
    (hm : 1 ≤ maxRetries) :
    (2 ≤ (retryWithBackoff maxRetries defaultStatusCodes op).2 ↔
        retryableSpec e) ∧
      (¬ retryableSpec e →
        retryWithBackoff maxRetries defaultStatusCodes op = (.error e, 1)) := by
  obtain ⟨m, rfl⟩ : ∃ m, maxRetries = m + 1 := ⟨maxRetries - 1, by omega⟩
  unfold retryWithBackoff
  unfold retryAux
  rw [h0]
  by_cases hr : retryableSpec e
  · have hb : shouldRetry e defaultStatusCodes = true := (shouldRetry_iff e).mpr hr
    simp only [hb, if_true]
    refine ⟨⟨fun _ => hr, fun _ => ?_⟩, fun habs => absurd hr habs⟩
    exact retryAux_count_ge op defaultStatusCodes m 1
  · have hb : shouldRetry e defaultStatusCodes = false := by
      rw [Bool.eq_false_iff]
      intro habs
      exact hr ((shouldRetry_iff e).mp habs)
    simp only [hb, Bool.false_eq_true, if_false]
    refine ⟨⟨fun h2 => ?_, fun h2 => absurd h2 hr⟩, fun _ => ?_⟩
    · exact absurd h2 (by norm_num)
    · trivial

/-- C5, witness for the amended theorem: a timeout at attempt 0 with
`max_retries = 1` is retried (2 invocations occur). -/
theorem retry_predicate_characterization_witness :
    (2 ≤ (retryWithBackoff 1 defaultStatusCodes
        (fun _ => (.error .timeout : Except Exc Unit))).2 ↔
      retryableSpec .timeout) ∧
      (¬ retryableSpec .timeout →
        retryWithBackoff 1 defaultStatusCodes
          (fun _ => (.error .timeout : Except Exc Unit)) = (.error .timeout, 1)) :=
  retry_predicate_characterization 1 _ .timeout rfl (by decide)

/-- C6: an operation that always raises a retryable error, wrapped with
`max_retries = 2`, is invoked exactly 3 times (1 initial attempt plus 2
retries) and the final exception — the one raised by the 3rd invocation —
is re-raised to the caller. -/
theorem retry_exhaustion (es : Nat → Exc) (op : Nat → Except Exc α)
    (hop : ∀ i, op i = .error (es i))
    (hr : ∀ i, shouldRetry (es i) defaultStatusCodes = true) :
    retryWithBackoff 2 defaultStatusCodes op = (.error (es 2), 3) := by
  unfold retryWithBackoff
  unfold retryAux
  rw [hop 0]
  simp only [hr 0, if_true]
  unfold retryAux
  rw [hop 1]
  simp only [hr 1, if_true]
  unfold retryAux
  rw [hop 2]

/-- C6, witness: a concrete operation that times out on every invocation,
wrapped with `max_retries = 2`, is invoked 3 times and the timeout
propagates. -/
theorem retry_exhaustion_witness :
    retryWithBackoff 2 defaultStatusCodes
        (fun _ => (.error .timeout : Except Exc Unit)) = (.error .timeout, 3) :=
  retry_exhaustion (fun _ => .timeout) _ (fun _ => rfl)
    (fun _ => (by decide : shouldRetry Exc.timeout defaultStatusCodes = true))

end PdfGet

namespace PdfGet

/-! ## Claim C7 -/

/-- C7: a stored entry is valid (not expired) exactly when its `ttl` is
null or `now - timestamp ≤ ttl`; reading an expired entry through `get`
deletes it and returns the caller's default (the expired entry behaves as
absent), while reading a valid entry returns its data and leaves the store
unchanged. -/
theorem cache_ttl_validity {α : Type} (store : CacheStore α) (key : Str)
    (default : α) (now : ℚ) (e : CacheEntry α) (h : store key = some e) :
    (isExpired e now = false ↔
        e.ttl = none ∨ ∃ t, e.ttl = some t ∧ now - e.timestamp ≤ t) ∧
      (isExpired e now = true →
        cacheGet store key default now = (default, cacheDelete store key) ∧
          (cacheGet store key default now).2 key = none) ∧
      (isExpired e now = false →
        cacheGet store key default now = (e.data, store)) := by
  refine ⟨?_, ?_, ?_⟩
  · unfold isExpired
    cases httl : e.ttl with
    | none => simp
    | some t =>
      simp only [decide_eq_false_iff_not, not_lt]
      constructor
      · intro hle
        exact Or.inr ⟨t, rfl, hle⟩
      · rintro (habs | ⟨t', ht', hle⟩)
        · exact absurd habs (by simp)
        · rw [Option.some_inj] at ht'
          subst ht'
          exact hle
  · intro hexp
    unfold cacheGet
    rw [h]
    simp only [hexp, if_true]
    refine ⟨trivial, ?_⟩
    unfold cacheDelete
    simp
  · intro hval
    unfold cacheGet
    rw [h]
    simp [hval]

/-- C7, witness: a store holding the single entry
`key "k" ↦ (data 5, timestamp 0, ttl 1)` read at `now = 3` (expired). -/
theorem cache_ttl_validity_witness :
    (isExpired (⟨5, 0, some 1⟩ : CacheEntry ℚ) 3 = false ↔
        (⟨5, 0, some 1⟩ : CacheEntry ℚ).ttl = none ∨
          ∃ t, (⟨5, 0, some 1⟩ : CacheEntry ℚ).ttl = some t ∧
            (3 : ℚ) - (⟨5, 0, some 1⟩ : CacheEntry ℚ).timestamp ≤ t) ∧
      (isExpired (⟨5, 0, some 1⟩ : CacheEntry ℚ) 3 = true →
        cacheGet (fun k => if k = str "k" then some ⟨5, 0, some 1⟩ else none)
            (str "k") (0 : ℚ) 3 =
          ((0 : ℚ), cacheDelete
            (fun k => if k = str "k" then some ⟨5, 0, some 1⟩ else none)
            (str "k")) ∧
          (cacheGet (fun k => if k = str "k" then some ⟨5, 0, some 1⟩ else none)
            (str "k") (0 : ℚ) 3).2 (str "k") = none) ∧
      (isExpired (⟨5, 0, some 1⟩ : CacheEntry ℚ) 3 = false →
        cacheGet (fun k => if k = str "k" then some ⟨5, 0, some 1⟩ else none)
            (str "k") (0 : ℚ) 3 =
          ((5 : ℚ), fun k => if k = str "k" then some ⟨5, 0, some 1⟩ else none)) :=
  cache_ttl_validity
    (fun k => if k = str "k" then some ⟨5, 0, some 1⟩ else none)
    (str "k") (0 : ℚ) 3 ⟨5, 0, some 1⟩ (by decide)

/-! ## Claim C8 -/

/-- C8: a DOI that fails validation's basic format checks — does not start
with `"10."`, or contains no `'/'`, or is shorter than 8 characters (all on
the stripped string, as `validate_doi` strips first) — makes `doi_to_pmcid`
return `null` at once: no outbound request is made, and the converter's
cache is untouched. -/
theorem doiToPmcid_invalid_short_circuit (env : DoiEnv)
    (cache : Str → Option (Option Str)) (doi : Str) (uf ufc : Bool)
    (h : (str "10.").isPrefixOf (pyStrip doi) = false ∨
      (pyStrip doi).contains '/' = false ∨ (pyStrip doi).length < 8) :
    doiToPmcid env cache doi uf ufc = (none, cache, []) := by
  have hv : validateDoi doi = false := by
    unfold validateDoi
    by_cases hd : doi = []
    · rw [if_pos hd]
    · rw [if_neg hd]
      have hc : (!((str "10.").isPrefixOf (pyStrip doi)) ||
          !(pyStrip doi).contains '/' ||
          decide ((pyStrip doi).length < 8)) = true := by
        rcases h with h | h | h
        · rw [h]; rfl
        · rw [h]; simp
        · simp [h]
      rw [if_pos hc]
  unfold doiToPmcid
  rw [hv]
  rfl

/-- C8, witness: the malformed DOI `"abc"` (no `"10."` prefix, no slash,
too short) produces no result, no request, and no cache write. -/
theorem doiToPmcid_invalid_short_circuit_witness :
    doiToPmcid ⟨fun _ => none, fun _ => none⟩ (fun _ => none) (str "abc")
        true true = (none, fun _ => none, []) :=
  doiToPmcid_invalid_short_circuit ⟨fun _ => none, fun _ => none⟩
    (fun _ => none) (str "abc") true true (by decide)

end PdfGet

namespace PdfGet

/-! ## Manager helper lemmas -/

/-- Truthiness of an optional string, unfolded. -/
lemma truthy_iff (o : Option Str) : truthy o = true ↔ ∃ s, o = some s ∧ s ≠ [] := by
  cases o with
  | none => simp [truthy]
  | some s =>
    simp only [truthy, Bool.not_eq_true', List.isEmpty_eq_false, Option.some_inj]
    constructor
    · intro h; exact ⟨s, rfl, h⟩
    · rintro ⟨s', rfl, h⟩; exact h

/-- A falsy optional string defaults to the empty string. -/
lemma getD_of_not_truthy {o : Option Str} (h : truthy o = false) : o.getD [] = [] := by
  cases o with
  | none => rfl
  | some s =>
    simp only [truthy] at h
    have hs : s.isEmpty = true := by
      cases hs : s.isEmpty
      · rw [hs] at h; simp at h
      · rfl
    rw [List.isEmpty_iff] at hs
    simp [hs]

/-- Wrapping `o.getD []` back into `some` preserves truthiness. -/
lemma truthy_some_getD (o : Option Str) : truthy (some (o.getD [])) = truthy o := by
  cases o <;> simp [truthy]

/-- A truthy optional string is `some` of its default-extraction. -/
lemma eq_some_getD_of_truthy {o : Option Str} (h : truthy o = true) :
    o = some (o.getD []) := by
  obtain ⟨s, rfl, -⟩ := (truthy_iff o).mp h
  rfl

/-- The reported identifier of a result dict (DOI preferred, else PMCID). -/
def resIdent (r : DRes) : Str :=
  if truthy r.doi then r.doi.getD [] else r.pmcid.getD []

/-- A result filed under key `k` reports identifier `k`. -/
lemma resIdent_of_key {r : DRes} {k : Str} (h : resKey r = some k) :
    resIdent r = k := by
  unfold resKey at h
  unfold resIdent
  by_cases hd : truthy r.doi = true
  · rw [if_pos hd] at h
    rw [if_pos hd, h]
    rfl
  · rw [if_neg hd] at h
    rw [if_neg hd]
    by_cases hp : truthy r.pmcid = true
    · rw [if_pos hp] at h
      rw [h]; rfl
    · rw [if_neg hp] at h
      exact absurd h (by simp)

/-- The synthesized failure for a paper reports the paper's identifier. -/
lemma resIdent_defaultFail (p : Paper) : resIdent (defaultFail p) = paperIdent p := by
  unfold resIdent defaultFail paperIdent
  simp only [truthy_some_getD]
  by_cases hd : truthy p.doi = true
  · simp [hd]
  · simp [hd]

/-- Every branch of `_download_single_task` writes the input `doi` into the
returned dict (`result["doi"] = doi`, and the exception dict carries it
too). -/
lemma task_doi (d p : Option Str) (env : TaskEnv) :
    (downloadSingleTask d p env).doi = d := by
  unfold downloadSingleTask
  rcases env with ⟨dl, se⟩
  by_cases hp : truthy p = true
  · simp only [hp, if_true]
    cases dl <;> rfl
  · simp only [hp, Bool.false_eq_true, if_false]
    cases se with
    | found q =>
      by_cases hq : q.isEmpty
      · simp only [hq, Bool.not_true, Bool.false_eq_true, if_false]
      · simp only [hq, Bool.not_false, if_true]
        cases dl <;> rfl
    | notFound => rfl
    | raise m => rfl

/-- The key under which a task's result lands is either the task's paper
identifier or nothing at all — never a different paper's identifier. -/
lemma task_key_doi (p : Paper) (env : TaskEnv) (hd : truthy p.doi = true) :
    resKey (downloadSingleTask p.doi p.pmcid env) = some (paperIdent p) := by
  unfold resKey
  rw [task_doi, if_pos hd, eq_some_getD_of_truthy hd]
  unfold paperIdent
  rw [if_pos hd]

/-- The key under which a task's result lands is either the task's paper
identifier or nothing at all — never a different paper's identifier. -/
lemma task_key (p : Paper) (env : TaskEnv) (h : hasIdent p = true) :
    resKey (downloadSingleTask p.doi p.pmcid env) = some (paperIdent p) ∨
      resKey (downloadSingleTask p.doi p.pmcid env) = none := by
  by_cases hd : truthy p.doi = true
  · exact Or.inl (task_key_doi p env hd)
  · have hdoi := task_doi p.doi p.pmcid env
    have hpm : truthy p.pmcid = true := by
      unfold hasIdent at h
      rw [Bool.or_eq_true] at h
      rcases h with h | h
      · exact absurd h hd
      · exact h
    have hpid : paperIdent p = p.pmcid.getD [] := by
      unfold paperIdent; rw [if_neg hd]
    unfold downloadSingleTask
    simp only [hpm, if_true]
    cases henv : env.download with
    | ok r =>
      left
      unfold resKey
      rw [if_neg hd, if_pos (by rw [truthy_some_getD]; exact hpm), hpid]
    | raise m =>
      right
      unfold resKey
      rw [if_neg hd]
      rfl

end PdfGet

namespace PdfGet

/-- Looking up `k` after folding `buildStep` head-to-tail over the reversed
list: the first match wins (i.e. the last completed result filed under `k`
in the original order). -/
lemma foldr_buildStep (l : List DRes) (m0 : Str → Option DRes) (k : Str) :
    (l.foldr (fun r m => buildStep m r) m0) k =
      (l.find? fun r => resKey r = some k).or (m0 k) := by
  induction l with
  | nil => simp [Option.or]
  | cons r l ih =>
    rw [List.foldr_cons, List.find?_cons]
    unfold buildStep
    cases hk : resKey r with
    | none => simpa using ih
    | some k' =>
      by_cases hkk : k = k'
      · subst hkk
        simp [Option.or]
      · have hdec : (decide ((some k' : Option Str) = some k)) = false := by
          simp only [decide_eq_false_iff_not, Option.some_inj]
          exact fun habs => hkk habs.symm
        simp only [hdec, if_neg hkk]
        exact ih

/-- `identifier_to_result[k]` is the latest completed result whose key is
`k` (first match over the reversed completion order). -/
lemma buildMap_lookup (rs : List DRes) (k : Str) :
    buildMap rs k = rs.reverse.find? (fun r => resKey r = some k) := by
  have h1 : buildMap rs = rs.reverse.foldr (fun r m => buildStep m r) (fun _ => none) := by
    unfold buildMap
    rw [List.foldr_reverse]
  rw [h1, foldr_buildStep]
  cases rs.reverse.find? (fun r => resKey r = some k) <;> rfl

/-- The task the pool runs for index `j` (total function form; meaningful
for `j` below the batch length when `envs` matches `papers` in length). -/
def taskAt (papers : List Paper) (envs : List TaskEnv) (j : Nat) : DRes :=
  downloadSingleTask (papers.getD j ⟨none, none⟩).doi
    (papers.getD j ⟨none, none⟩).pmcid (envs.getD j ⟨.ok {}, .notFound⟩)

/-- Under a valid configuration (`envs` as long as `papers`, every
completion index in range), the collected results are exactly the tasks'
results in completion order. -/
lemma completedResults_eq_map (papers : List Paper) (envs : List TaskEnv)
    (order : List Nat) (hlen : envs.length = papers.length)
    (hmem : ∀ j ∈ order, j < papers.length) :
    completedResults papers envs order = order.map (taskAt papers envs) := by
  unfold completedResults
  induction order with
  | nil => rfl
  | cons j order ih =>
    rw [List.filterMap_cons, List.map_cons]
    have hj : j < papers.length := hmem j (by simp)
    have hj' : j < envs.length := by rw [hlen]; exact hj
    rw [List.getElem?_eq_getElem hj, List.getElem?_eq_getElem hj']
    rw [show ((some papers[j]).bind fun p =>
        (some envs[j]).map fun e => downloadSingleTask p.doi p.pmcid e)
      = some (downloadSingleTask papers[j].doi papers[j].pmcid envs[j]) from rfl]
    rw [ih (fun x hx => hmem x (by simp [hx]))]
    unfold taskAt
    rw [List.getD_eq_getElem papers ⟨none, none⟩ hj,
      List.getD_eq_getElem envs ⟨.ok {}, .notFound⟩ hj']

/-- When every paper carries an identifier, the reorder step emits exactly
one result per paper, in the papers' order. -/
lemma reorderResults_eq_map (papers : List Paper) (m : Str → Option DRes)
    (h : ∀ p ∈ papers, hasIdent p = true) :
    reorderResults papers m =
      papers.map fun p =>
        match m (paperIdent p) with
        | some r => r
        | none => defaultFail p := by
  unfold reorderResults
  induction papers with
  | nil => rfl
  | cons p papers ih =>
    rw [List.filterMap_cons, List.map_cons]
    rw [if_pos (h p (by simp))]
    rw [ih (fun q hq => h q (by simp [hq]))]

end PdfGet

namespace PdfGet

/-- A successful `identifier_to_result` lookup returns a result keyed by
the looked-up identifier. -/
lemma buildMap_some_key {rs : List DRes} {k : Str} {r : DRes}
    (h : buildMap rs k = some r) : resKey r = some k := by
  rw [buildMap_lookup] at h
  have := List.find?_some h
  simpa using this

/-- `find?` returns `some i` when `i` is the only element satisfying the
predicate (regardless of how often `i` occurs). -/
lemma find?_unique {L : List Nat} {Q : Nat → Bool} {i : Nat}
    (huniq : ∀ j ∈ L, Q j = true → j = i) (hmem : i ∈ L) (hQ : Q i = true) :
    L.find? Q = some i := by
  induction L with
  | nil => simp at hmem
  | cons a L ih =>
    rw [List.find?_cons]
    cases ha : Q a with
    | true =>
      have : a = i := huniq a (by simp) ha
      subst this
      rfl
    | false =>
      have hne : i ≠ a := by
        intro habs
        subst habs
        rw [hQ] at ha
        exact absurd ha (by simp)
      have hmem' : i ∈ L := by
        rcases List.mem_cons.mp hmem with h | h
        · exact absurd h hne
        · exact h
      exact ih (fun j hj hQj => huniq j (by simp [hj]) hQj) hmem'

/-- Index-form of identifier distinctness. -/
lemma nodup_idents_index {papers : List Paper}
    (h : (papers.map paperIdent).Nodup) :
    ∀ i j, ∀ hi : i < papers.length, ∀ hj : j < papers.length,
      paperIdent papers[i] = paperIdent papers[j] → i = j := by
  intro i j hi hj he
  have hi' : i < (papers.map paperIdent).length := by simpa using hi
  have hj' : j < (papers.map paperIdent).length := by simpa using hj
  have : (papers.map paperIdent)[i] = (papers.map paperIdent)[j] := by
    rw [List.getElem_map, List.getElem_map]
    exact he
  exact (List.Nodup.getElem_inj_iff h).mp this

/-- Under a valid configuration with pairwise-distinct paper identifiers,
`identifier_to_result` at paper `i`'s identifier holds exactly task `i`'s
result — when that result was filed at all — independent of the completion
order. -/
lemma buildMap_at_ident (papers : List Paper) (envs : List TaskEnv)
    (order : List Nat) (hlen : envs.length = papers.length)
    (hperm : order.Perm (List.range papers.length))
    (hid : ∀ p ∈ papers, hasIdent p = true)
    (hdist : (papers.map paperIdent).Nodup)
    (i : Nat) (hi : i < papers.length) :
    buildMap (completedResults papers envs order) (paperIdent papers[i]) =
      if resKey (taskAt papers envs i) = some (paperIdent papers[i])
      then some (taskAt papers envs i) else none := by
  have hmem : ∀ j ∈ order, j < papers.length := fun j hj =>
    List.mem_range.mp (hperm.mem_iff.mp hj)
  have hidx := nodup_idents_index hdist
  rw [completedResults_eq_map papers envs order hlen hmem, buildMap_lookup,
    ← List.map_reverse, List.find?_map (taskAt papers envs) order.reverse]
  have hmemrev : ∀ j ∈ order.reverse, j < papers.length := fun j hj =>
    hmem j (List.mem_reverse.mp hj)
  have htask : ∀ j, ∀ hj : j < papers.length,
      taskAt papers envs j =
        downloadSingleTask papers[j].doi papers[j].pmcid
          (envs.getD j ⟨.ok {}, .notFound⟩) := by
    intro j hj
    unfold taskAt
    rw [List.getD_eq_getElem papers ⟨none, none⟩ hj]
  have htk : ∀ j, ∀ hj : j < papers.length,
      resKey (taskAt papers envs j) = some (paperIdent papers[j]) ∨
        resKey (taskAt papers envs j) = none := by
    intro j hj
    rw [htask j hj]
    exact task_key papers[j] _ (hid _ (List.getElem_mem hj))
  by_cases hkey : resKey (taskAt papers envs i) = some (paperIdent papers[i])
  · rw [if_pos hkey]
    have hfind : order.reverse.find?
        ((fun r => decide (resKey r = some (paperIdent papers[i]))) ∘
          taskAt papers envs) = some i := by
      apply find?_unique
      · intro j hj hQ
        have hjlt := hmemrev j hj
        simp only [Function.comp_apply, decide_eq_true_iff] at hQ
        rcases htk j hjlt with hk | hk
        · rw [hk] at hQ
          rw [Option.some_inj] at hQ
          exact hidx j i hjlt hi hQ
        · rw [hk] at hQ
          exact absurd hQ (by simp)
      · exact List.mem_reverse.mpr (hperm.mem_iff.mpr (List.mem_range.mpr hi))
      · simp only [Function.comp_apply, decide_eq_true_iff]
        exact hkey
    rw [hfind]
    rfl
  · rw [if_neg hkey]
    have hfind : order.reverse.find?
        ((fun r => decide (resKey r = some (paperIdent papers[i]))) ∘
          taskAt papers envs) = none := by
      rw [List.find?_eq_none]
      intro j hj
      have hjlt := hmemrev j hj
      simp only [Function.comp_apply, decide_eq_true_iff]
      intro hQ
      rcases htk j hjlt with hk | hk
      · rw [hk] at hQ
        rw [Option.some_inj] at hQ
        have := hidx j i hjlt hi hQ
        subst this
        exact hkey hk
      · rw [hk] at hQ
        exact absurd hQ (by simp)
    rw [hfind]
    rfl

/-- The per-slot content of the concurrent download's output: each input
position receives its own task's result (or the synthesized failure when
that task's result was never filed), regardless of completion order. -/
lemma downloadConcurrent_slot (papers : List Paper) (envs : List TaskEnv)
    (order : List Nat) (hlen : envs.length = papers.length)
    (hperm : order.Perm (List.range papers.length))
    (hid : ∀ p ∈ papers, hasIdent p = true)
    (hdist : (papers.map paperIdent).Nodup)
    (i : Nat) (hi : i < papers.length) :
    (downloadConcurrent papers envs order)[i]? =
      some (if resKey (taskAt papers envs i) = some (paperIdent papers[i])
            then taskAt papers envs i else defaultFail papers[i]) := by
  unfold downloadConcurrent
  rw [reorderResults_eq_map _ _ hid, List.getElem?_map,
    List.getElem?_eq_getElem hi]
  rw [Option.map_some']
  rw [buildMap_at_ident papers envs order hlen hperm hid hdist i hi]
  by_cases hkey : resKey (taskAt papers envs i) = some (paperIdent papers[i])
  · rw [if_pos hkey, if_pos hkey]
  · rw [if_neg hkey, if_neg hkey]

end PdfGet

namespace PdfGet

/-- `taskAt` at an in-range index is the task run on that paper. -/
lemma taskAt_eq (papers : List Paper) (envs : List TaskEnv) (j : Nat)
    (hj : j < papers.length) :
    taskAt papers envs j =
      downloadSingleTask papers[j].doi papers[j].pmcid
        (envs.getD j ⟨.ok {}, .notFound⟩) := by
  unfold taskAt
  rw [List.getD_eq_getElem papers ⟨none, none⟩ hj]

/-- A paper with a truthy DOI always ends up filed in
`identifier_to_result` (its task writes the DOI into the result in every
branch, including the exception branch). -/
lemma buildMap_at_doi_ne_none (papers : List Paper) (envs : List TaskEnv)
    (order : List Nat) (hlen : envs.length = papers.length)
    (hperm : order.Perm (List.range papers.length))
    (i : Nat) (hi : i < papers.length)
    (hd : truthy papers[i].doi = true) :
    buildMap (completedResults papers envs order) (paperIdent papers[i]) ≠
      none := by
  have hmem : ∀ j ∈ order, j < papers.length := fun j hj =>
    List.mem_range.mp (hperm.mem_iff.mp hj)
  rw [completedResults_eq_map papers envs order hlen hmem, buildMap_lookup,
    ← List.map_reverse, List.find?_map (taskAt papers envs) order.reverse]
  intro hnone
  rw [Option.map_eq_none'] at hnone
  rw [List.find?_eq_none] at hnone
  have hmm : i ∈ order.reverse :=
    List.mem_reverse.mpr (hperm.mem_iff.mpr (List.mem_range.mpr hi))
  have := hnone i hmm
  simp only [Function.comp_apply, decide_eq_true_iff] at this
  apply this
  rw [taskAt_eq papers envs i hi]
  exact task_key_doi papers[i] _ hd

/-- When the batch is non-empty and some item carries an identifier,
`download_batch` runs the concurrent path. -/
lemma downloadBatch_eq_concurrent (items : List Paper) (envs : List TaskEnv)
    (order : List Nat) (hne : items ≠ [])
    (hid : ∀ p ∈ items, hasIdent p = true) :
    downloadBatch items envs order = downloadConcurrent items envs order := by
  unfold downloadBatch
  rw [if_neg hne]
  have hcond : ((items.filterMap fun p =>
      if truthy p.doi then p.doi else none).isEmpty &&
      (items.countP (fun p => truthy p.pmcid) == 0)) = false := by
    rw [Bool.eq_false_iff]
    intro htrue
    rw [Bool.and_eq_true] at htrue
    obtain ⟨hdois, hcount⟩ := htrue
    rw [List.isEmpty_iff, List.filterMap_eq_nil_iff] at hdois
    rw [beq_iff_eq, List.countP_eq_zero] at hcount
    cases items with
    | nil => exact hne rfl
    | cons p0 rest =>
      have h0 := hid p0 (by simp)
      unfold hasIdent at h0
      rw [Bool.or_eq_true] at h0
      rcases h0 with h0 | h0
      · have := hdois p0 (by simp)
        rw [if_pos h0] at this
        rw [this] at h0
        exact absurd h0 (by decide)
      · exact absurd h0 (by simpa using hcount p0 (by simp))
  simp only [hcond, Bool.false_eq_true, if_false]

/-! ## Claim C1 -/

/-- C1, counterexample: a 2-item batch in which the first item carries a
DOI but the second carries neither identifier.  The batch is non-empty and
an item has an identifier, yet `download_batch` returns only 1 result — the
identifier-less item is silently dropped by the reorder step, so the output
is not the same length as the input. -/
theorem downloadBatch_drops_identifierless_cex :
    (([⟨some (str "d"), none⟩, ⟨none, none⟩] : List Paper) ≠ []) ∧
      (∃ p ∈ ([⟨some (str "d"), none⟩, ⟨none, none⟩] : List Paper),
        truthy p.doi = true ∨ truthy p.pmcid = true) ∧
      ([⟨.ok { success := true }, .notFound⟩, ⟨.ok {}, .notFound⟩] :
        List TaskEnv).length =
        ([⟨some (str "d"), none⟩, ⟨none, none⟩] : List Paper).length ∧
      ([0, 1].Perm
        (List.range ([⟨some (str "d"), none⟩, ⟨none, none⟩] :
          List Paper).length)) ∧
      (downloadBatch [⟨some (str "d"), none⟩, ⟨none, none⟩]
          [⟨.ok { success := true }, .notFound⟩, ⟨.ok {}, .notFound⟩]
          [0, 1]).length = 1 ∧
      ([⟨some (str "d"), none⟩, ⟨none, none⟩] : List Paper).length = 2 := by
  refine ⟨by decide, ⟨⟨some (str "d"), none⟩, by decide, by decide⟩,
    by decide, by decide, by decide, by decide⟩

/-- C1, amended: for every non-empty input list in which *every* item
carries a DOI or a PMCID, `download_batch` returns one `DownloadResult` per
item, in input order: the output has the same length as the input and the
result at position `i` reports exactly the identifier of the item at
position `i`, regardless of the task completion order.  (An item carrying
neither identifier is dropped from the output, which is why "at least one
item has an identifier" is not enough for the length claim.) -/
theorem downloadBatch_length_and_order (items : List Paper)
    (envs : List TaskEnv) (order : List Nat) (hne : items ≠ [])
    (hid : ∀ p ∈ items, hasIdent p = true) :
    (downloadBatch items envs order).length = items.length ∧
      ∀ i, ∀ hi : i < items.length,
        ((downloadBatch items envs order)[i]?).map resIdent =
          some (paperIdent items[i]) := by
  rw [downloadBatch_eq_concurrent items envs order hne hid]
  unfold downloadConcurrent
  rw [reorderResults_eq_map _ _ hid]
  constructor
  · rw [List.length_map]
  · intro i hi
    rw [List.getElem?_map, List.getElem?_eq_getElem hi, Option.map_some',
      Option.map_some']
    cases hm : buildMap (completedResults items envs order)
        (paperIdent items[i]) with
    | some r =>
      rw [Option.some_inj]
      exact resIdent_of_key (buildMap_some_key hm)
    | none =>
      rw [Option.some_inj]
      exact resIdent_defaultFail items[i]

/-- C1, witness for the amended theorem: a singleton batch whose item
carries a DOI yields one result reporting that DOI. -/
theorem downloadBatch_length_and_order_witness :
    (downloadBatch [⟨some (str "d"), none⟩] [⟨.ok {}, .notFound⟩]
        [0]).length = ([⟨some (str "d"), none⟩] : List Paper).length ∧
      ∀ i, ∀ hi : i < ([⟨some (str "d"), none⟩] : List Paper).length,
        ((downloadBatch [⟨some (str "d"), none⟩] [⟨.ok {}, .notFound⟩]
            [0])[i]?).map resIdent =
          some (paperIdent ([⟨some (str "d"), none⟩] : List Paper)[i]) :=
  downloadBatch_length_and_order [⟨some (str "d"), none⟩]
    [⟨.ok {}, .notFound⟩] [0] (by decide) (by decide)

end PdfGet

namespace PdfGet

/-! ## Claim C9 -/

/-- The configurations of the injected fetcher under which the body of
`_download_single_task` raises an exception: the download raises while a
PMCID is known; the search raises; or the search finds a PMCID and the
subsequent download raises. -/
def taskRaises (p : Paper) (env : TaskEnv) : Prop :=
  (truthy p.pmcid = true ∧ ∃ m, env.download = .raise m) ∨
    (truthy p.pmcid = false ∧ ∃ m, env.search = .raise m) ∨
    (truthy p.pmcid = false ∧
      ∃ q m, env.search = .found q ∧ q ≠ [] ∧ env.download = .raise m)

/-- A task whose body raises returns a failed result with an error message
(the exception is caught at the task boundary). -/
lemma task_raises_failed (p : Paper) (env : TaskEnv) (h : taskRaises p env) :
    (downloadSingleTask p.doi p.pmcid env).success = false ∧
      (downloadSingleTask p.doi p.pmcid env).error.isSome = true := by
  rcases h with ⟨hp, m, hdl⟩ | ⟨hp, m, hse⟩ | ⟨hp, q, m, hse, hq, hdl⟩
  · simp [downloadSingleTask, hp, hdl]
  · simp [downloadSingleTask, hp, hse]
  · simp [downloadSingleTask, hp, hse, hdl, List.isEmpty_eq_false.mpr hq]

/-- C9: in a batch of identifier-carrying items with pairwise-distinct
identifiers, an exception raised inside one download task is caught at the
task boundary and surfaces as that item's failed result (`success = false`
with an error message), while every other item's output slot still holds
its own task's result (or its own synthesized failure) — computed from that
item's paper and fetcher behaviour alone, for any completion order.  One
item's failure never aborts its siblings. -/
theorem downloadConcurrent_exception_isolated (papers : List Paper)
    (envs : List TaskEnv) (order : List Nat)
    (hlen : envs.length = papers.length)
    (hperm : order.Perm (List.range papers.length))
    (hid : ∀ p ∈ papers, hasIdent p = true)
    (hdist : (papers.map paperIdent).Nodup)
    (j : Nat) (hj : j < papers.length)
    (hraise : taskRaises papers[j] (envs.getD j ⟨.ok {}, .notFound⟩)) :
    (∃ r, (downloadConcurrent papers envs order)[j]? = some r ∧
        r.success = false ∧ r.error.isSome = true) ∧
      ∀ i, ∀ hi : i < papers.length, i ≠ j →
        (downloadConcurrent papers envs order)[i]? =
          some (if resKey (taskAt papers envs i) = some (paperIdent papers[i])
                then taskAt papers envs i else defaultFail papers[i]) := by
  constructor
  · refine ⟨_, downloadConcurrent_slot papers envs order hlen hperm hid hdist
      j hj, ?_⟩
    by_cases hkey : resKey (taskAt papers envs j) = some (paperIdent papers[j])
    · rw [if_pos hkey, taskAt_eq papers envs j hj]
      exact task_raises_failed _ _ hraise
    · rw [if_neg hkey]
      exact ⟨rfl, rfl⟩
  · intro i hi _
    exact downloadConcurrent_slot papers envs order hlen hperm hid hdist i hi

/-- C9, witness: a 2-item batch where item 1's download raises while item
0's download succeeds; completion order has the failing task finish
first. -/
theorem downloadConcurrent_exception_isolated_witness :
    (∃ r, (downloadConcurrent
          [⟨some (str "a"), none⟩, ⟨some (str "b"), some (str "PMC1")⟩]
          [⟨.ok { success := true, path := some (str "p") }, .notFound⟩,
            ⟨.raise (str "boom"), .notFound⟩]
          [1, 0])[1]? = some r ∧ r.success = false ∧ r.error.isSome = true) ∧
      ∀ i, ∀ hi : i < ([⟨some (str "a"), none⟩,
          ⟨some (str "b"), some (str "PMC1")⟩] : List Paper).length, i ≠ 1 →
        (downloadConcurrent
            [⟨some (str "a"), none⟩, ⟨some (str "b"), some (str "PMC1")⟩]
            [⟨.ok { success := true, path := some (str "p") }, .notFound⟩,
              ⟨.raise (str "boom"), .notFound⟩]
            [1, 0])[i]? =
          some (if resKey (taskAt
                  [⟨some (str "a"), none⟩, ⟨some (str "b"), some (str "PMC1")⟩]
                  [⟨.ok { success := true, path := some (str "p") }, .notFound⟩,
                    ⟨.raise (str "boom"), .notFound⟩] i) =
                some (paperIdent ([⟨some (str "a"), none⟩,
                  ⟨some (str "b"), some (str "PMC1")⟩] : List Paper)[i])
                then taskAt
                  [⟨some (str "a"), none⟩, ⟨some (str "b"), some (str "PMC1")⟩]
                  [⟨.ok { success := true, path := some (str "p") }, .notFound⟩,
                    ⟨.raise (str "boom"), .notFound⟩] i
                else defaultFail ([⟨some (str "a"), none⟩,
                  ⟨some (str "b"), some (str "PMC1")⟩] : List Paper)[i]) :=
  downloadConcurrent_exception_isolated
    [⟨some (str "a"), none⟩, ⟨some (str "b"), some (str "PMC1")⟩]
    [⟨.ok { success := true, path := some (str "p") }, .notFound⟩,
      ⟨.raise (str "boom"), .notFound⟩]
    [1, 0] (by decide) (by decide) (by decide) (by decide) 1 (by decide)
    (Or.inl ⟨by decide, str "boom", rfl⟩)

end PdfGet

namespace PdfGet

/-! ## Claim C10 -/

/-- C10: when two items of a batch carry the same identifier (the DOI when
truthy, else the PMCID), the reorder step keys completed results by that
identifier, so both output slots hold one and the same result dict — the
two tasks' outcomes are never reported separately. -/
theorem downloadBatch_duplicate_identifier_shared (items : List Paper)
    (envs : List TaskEnv) (order : List Nat)
    (hlen : envs.length = items.length)
    (hperm : order.Perm (List.range items.length))
    (hid : ∀ p ∈ items, hasIdent p = true)
    (i j : Nat) (hi : i < items.length) (hj : j < items.length)
    (hsame : paperIdent items[i] = paperIdent items[j]) :
    (downloadBatch items envs order)[i]? =
      (downloadBatch items envs order)[j]? := by
  have hne : items ≠ [] := by
    intro h
    rw [h] at hi
    simp at hi
  rw [downloadBatch_eq_concurrent items envs order hne hid]
  unfold downloadConcurrent
  rw [reorderResults_eq_map _ _ hid]
  rw [List.getElem?_map, List.getElem?_map, List.getElem?_eq_getElem hi,
    List.getElem?_eq_getElem hj, Option.map_some', Option.map_some']
  rw [hsame]
  cases hm : buildMap (completedResults items envs order)
      (paperIdent items[j]) with
  | some r => rfl
  | none =>
    rw [Option.some_inj]
    have hdi : truthy items[i].doi = false := by
      cases hd : truthy items[i].doi with
      | false => rfl
      | true =>
        exfalso
        apply buildMap_at_doi_ne_none items envs order hlen hperm i hi hd
        rw [hsame]
        exact hm
    have hdj : truthy items[j].doi = false := by
      cases hd : truthy items[j].doi with
      | false => rfl
      | true =>
        exfalso
        apply buildMap_at_doi_ne_none items envs order hlen hperm j hj hd
        exact hm
    have e1 : paperIdent items[i] = items[i].pmcid.getD [] := by
      unfold paperIdent
      rw [if_neg (by simp [hdi])]
    have e2 : paperIdent items[j] = items[j].pmcid.getD [] := by
      unfold paperIdent
      rw [if_neg (by simp [hdj])]
    have h3 : items[i].pmcid.getD [] = items[j].pmcid.getD [] := by
      rw [← e1, ← e2, hsame]
    unfold defaultFail
    rw [getD_of_not_truthy hdi, getD_of_not_truthy hdj, h3]

/-- C10, witness: two items with the same DOI `"d"`; whatever the
completion order, both output slots are equal. -/
theorem downloadBatch_duplicate_identifier_shared_witness :
    (downloadBatch [⟨some (str "d"), none⟩, ⟨some (str "d"), some (str "PMC1")⟩]
        [⟨.ok { success := true }, .notFound⟩, ⟨.ok {}, .notFound⟩]
        [1, 0])[0]? =
      (downloadBatch [⟨some (str "d"), none⟩, ⟨some (str "d"), some (str "PMC1")⟩]
          [⟨.ok { success := true }, .notFound⟩, ⟨.ok {}, .notFound⟩]
          [1, 0])[1]? :=
  downloadBatch_duplicate_identifier_shared
    [⟨some (str "d"), none⟩, ⟨some (str "d"), some (str "PMC1")⟩]
    [⟨.ok { success := true }, .notFound⟩, ⟨.ok {}, .notFound⟩]
    [1, 0] (by decide) (by decide) (by decide) 0 1 (by decide) (by decide)
    (by decide)

end PdfGet
